import Mathlib

/-!
Verification of the OpenScaler composition core (`src/image_label.py`,
`src/utils.py`).  The Python code is shallowly embedded: float arithmetic is
modelled by exact rational (or, where square roots and arctangents occur,
real) arithmetic, Python's truncating `int(...)` conversion by `pyInt`, and
each embedded definition mirrors one source function.
-/

namespace OpenScaler

/-- Python's `int(x)` conversion on a float truncates toward zero. -/
def pyInt (q : ℚ) : ℤ := if 0 ≤ q then ⌊q⌋ else ⌈q⌉

/-- Constant `ImageLabel.DISPLAY_SCALE`: display pixels per millimetre. -/
def DISPLAY_SCALE : ℚ := 8

/-! ## Coordinate transforms (`_get_scale_ratio`, `_screen_to_image_coords`,
`_image_to_screen_coords`), `src/image_label.py` lines 483-514.

Only the valid-index path is modelled: the transforms are parametrised
directly by the image record they read. -/

/-- The per-image fields the coordinate transforms read: `image_scale_factor`
and the cached screen offset `image_offset` (a `QPoint`, hence integral). -/
structure ImageView where
  image_scale_factor : ℚ
  image_offset : ℤ × ℤ

/-- Embeds `ImageLabel._get_scale_ratio`: image pixels to screen pixels, the product
of the image scale factor, `DISPLAY_SCALE` and the live view zoom
(`self.scale_factor`). -/
def image_to_screen_scale (img : ImageView) (scale_factor : ℚ) : ℚ :=
  img.image_scale_factor * DISPLAY_SCALE * scale_factor

/-- Embeds `ImageLabel._screen_to_image_coords`: returns `(0, 0)` when the combined
scale ratio is zero, otherwise subtracts the image offset and divides. -/
def screen_to_image_coords (img : ImageView) (scale_factor : ℚ)
    (screen_x screen_y : ℚ) : ℚ × ℚ :=
  if image_to_screen_scale img scale_factor = 0 then (0, 0)
  else ((screen_x - img.image_offset.1) / image_to_screen_scale img scale_factor,
        (screen_y - img.image_offset.2) / image_to_screen_scale img scale_factor)

/-- Embeds `ImageLabel._image_to_screen_coords`: multiplies by the combined scale
ratio and adds the image offset. -/
def image_to_screen_coords (img : ImageView) (scale_factor : ℚ)
    (img_x img_y : ℚ) : ℚ × ℚ :=
  (img_x * image_to_screen_scale img scale_factor + img.image_offset.1,
   img_y * image_to_screen_scale img scale_factor + img.image_offset.2)

/-! ## Image drag (`ImageLabel.mouseMoveEvent`, branch 1, lines 730-759). -/

/-- The inputs one pointer-move-while-dragging step reads: the paper pixel
size from `_get_display_metrics`, the dragged image's cached display size,
the image offset captured at press time, and the pointer delta. -/
structure DragEvent where
  paper_width : ℤ
  paper_height : ℤ
  display_width : ℤ
  display_height : ℤ
  original_offset : ℤ × ℤ
  delta : ℤ × ℤ

/-- One drag step of `ImageLabel.mouseMoveEvent`: the new pixel offset is
clamped to `[0, free]` and divided by the free space; a dimension with
non-positive free space gets ratio `0`. -/
def drag_ratios (e : DragEvent) : ℚ × ℚ :=
  let free_w := e.paper_width - e.display_width
  let free_h := e.paper_height - e.display_height
  let new_x := e.original_offset.1 + e.delta.1
  let new_y := e.original_offset.2 + e.delta.2
  let ratio_x : ℚ := if free_w > 0 then ((max 0 (min new_x free_w) : ℤ) : ℚ) / (free_w : ℚ) else 0
  let ratio_y : ℚ := if free_h > 0 then ((max 0 (min new_y free_h) : ℤ) : ℚ) / (free_h : ℚ) else 0
  (ratio_x, ratio_y)

/-- A sequence of drag steps: each pointer-move overwrites `offset_ratios`
with the ratios computed from that event alone. -/
def apply_drags (evs : List DragEvent) (init : ℚ × ℚ) : ℚ × ℚ :=
  evs.foldl (fun _ e => drag_ratios e) init

/-! ## Zoom to point (`ImageLabel.apply_zoom`, lines 359-431).

The branch with a scroll area and a mouse position is modelled.  The
dynamically computed fit-window minimum (`min_scale`, from the viewport
size) is a parameter; the scrollbar positions are the two integers stored by
`setValue(int(...))` (Qt's clamping of a scrollbar value to its range is
widget behaviour outside the model). -/

/-- Embeds `ImageLabel.apply_zoom` on state `(scale_factor, hbar, vbar)`: the new
scale is `new_factor = scale_factor * factor` clamped to
`[min_scale, 5.0]`; if the old factor was zero the scroll update is skipped
(`if old_factor == 0: return`); otherwise each scrollbar is set to
`int(old + mouse * (real_factor - 1))` with `real_factor` the actually
applied ratio of new to old scale. -/
def apply_zoom (min_scale : ℚ) (factor : ℚ) (mouse : ℤ × ℤ)
    (scale_factor : ℚ) (hbar vbar : ℤ) : ℚ × ℤ × ℤ :=
  let new_factor := scale_factor * factor
  let new_scale := max min_scale (min 5 new_factor)
  if scale_factor = 0 then (new_scale, hbar, vbar)
  else
    let real_factor := new_scale / scale_factor
    (new_scale,
     pyInt ((hbar : ℚ) + (mouse.1 : ℚ) * (real_factor - 1)),
     pyInt ((vbar : ℚ) + (mouse.2 : ℚ) * (real_factor - 1)))

/-! ## Initial scale and auto-layout (`_calculate_initial_scale_for_image`
lines 178-203, `_auto_arrange_images` lines 205-278). -/

/-- Embeds `ImageLabel._calculate_initial_scale_for_image` for a pixmap of
`pixmap_width x pixmap_height` source pixels on paper of
`width_mm x height_mm`: fit to a 10 mm margin on all sides, taking the
smaller of the width-wise and height-wise scales; batch mode shrinks the
result to 45%.  A zero pixmap dimension leaves the previous scale. -/
def calculate_initial_scale (width_mm height_mm : ℚ)
    (pixmap_width pixmap_height : ℤ) (is_batch_mode : Bool)
    (old_scale : ℚ) : ℚ :=
  let margin_mm : ℚ := 10
  let available_width_mm := width_mm - 2 * margin_mm
  let available_height_mm := height_mm - 2 * margin_mm
  if pixmap_width = 0 ∨ pixmap_height = 0 then old_scale
  else
    let scale_by_width := available_width_mm / (pixmap_width : ℚ)
    let scale_by_height := available_height_mm / (pixmap_height : ℚ)
    let base_scale := min scale_by_width scale_by_height
    if is_batch_mode then base_scale * (45 / 100) else base_scale

/-- What `_auto_arrange_images` reads per image: pixmap dimensions and the
image scale factor (images with a null pixmap are skipped by the loop and
are not modelled). -/
structure ArrangeImage where
  pixmap_width : ℤ
  pixmap_height : ℤ
  image_scale_factor : ℚ

/-- Loop body of `_auto_arrange_images` at simulated zoom 1.0: flow layout
cursor state is `(current_x, current_y, row_max_height)`; returns the new
state and the `offset_ratios` assigned to this image. -/
def arrange_step (paper_w paper_h margin_left padding : ℤ)
    (st : ℤ × ℤ × ℤ) (img : ArrangeImage) : (ℤ × ℤ × ℤ) × (ℚ × ℚ) :=
  let img_w := pyInt ((img.pixmap_width : ℚ) * img.image_scale_factor * DISPLAY_SCALE * 1)
  let img_h := pyInt ((img.pixmap_height : ℚ) * img.image_scale_factor * DISPLAY_SCALE * 1)
  let wrapped := st.1 + img_w > paper_w - margin_left ∧ st.1 > margin_left
  let current_x := if wrapped then margin_left else st.1
  let current_y := if wrapped then st.2.1 + st.2.2 + padding else st.2.1
  let row_max_height := if wrapped then 0 else st.2.2
  let free_w := paper_w - img_w
  let free_h := paper_h - img_h
  let ratio_x0 : ℚ := if free_w ≠ 0 then (current_x : ℚ) / (free_w : ℚ) else 0
  let ratio_y0 : ℚ := if free_h ≠ 0 then (current_y : ℚ) / (free_h : ℚ) else 0
  let ratio_x := if free_w > 0 then max 0 (min 1 ratio_x0) else ratio_x0
  let ratio_y := if free_h > 0 then max 0 (min 1 ratio_y0) else ratio_y0
  ((current_x + img_w + padding, current_y, max row_max_height img_h),
   (ratio_x, ratio_y))

/-- The flow-layout loop of `_auto_arrange_images`, threading the cursor
state through `arrange_step` and collecting each image's ratios. -/
def arrange_loop (paper_w paper_h margin_left padding : ℤ)
    (st : ℤ × ℤ × ℤ) : List ArrangeImage → List (ℚ × ℚ)
  | [] => []
  | img :: rest =>
    let r := arrange_step paper_w paper_h margin_left padding st img
    r.2 :: arrange_loop paper_w paper_h margin_left padding r.1 rest

/-- Embeds `ImageLabel._auto_arrange_images`: run the flow-layout loop over the
image list and collect each image's assigned `offset_ratios`.  Layout
constants mirror the source: paper pixels via `int(mm * DISPLAY_SCALE)`,
5 mm padding, 10 mm top and left margins. -/
def auto_arrange_images (width_mm height_mm : ℚ)
    (images : List ArrangeImage) : List (ℚ × ℚ) :=
  let paper_w := pyInt (width_mm * DISPLAY_SCALE)
  let paper_h := pyInt (height_mm * DISPLAY_SCALE)
  let padding := pyInt (5 * DISPLAY_SCALE)
  let margin_top := pyInt (10 * DISPLAY_SCALE)
  let margin_left := pyInt (10 * DISPLAY_SCALE)
  arrange_loop paper_w paper_h margin_left padding (margin_left, margin_top, 0) images

/-- Embeds `ImageLabel._get_display_metrics` (lines 289-293): the paper size in
screen pixels, `int(mm * DISPLAY_SCALE * scale_factor)` per dimension. -/
def get_display_metrics (width_mm height_mm scale_factor : ℚ) : ℤ × ℤ :=
  (pyInt (width_mm * DISPLAY_SCALE * scale_factor),
   pyInt (height_mm * DISPLAY_SCALE * scale_factor))

/-- An image's on-widget display size as recomputed by
`_update_paper_display` (lines 328-329):
`int(pixels * image_scale_factor * DISPLAY_SCALE * scale_factor)`. -/
def display_size_on_widget (pixels : ℤ) (image_scale_factor scale_factor : ℚ) : ℤ :=
  pyInt ((pixels : ℚ) * image_scale_factor * DISPLAY_SCALE * scale_factor)

/-- Embeds `ImageLabel._get_image_offset_from_ratios` (lines 295-312): the pixel
offset of an image on the paper, `int(free * ratio)` per dimension. -/
def get_image_offset_from_ratios (paper_w paper_h display_w display_h : ℤ)
    (ratios : ℚ × ℚ) : ℤ × ℤ :=
  (pyInt (((paper_w - display_w : ℤ) : ℚ) * ratios.1),
   pyInt (((paper_h - display_h : ℤ) : ℚ) * ratios.2))

/-! ## Image deletion (`ImageLabel._delete_image`, lines 967-979). -/

/-- Embeds `ImageLabel._delete_image`: with a valid index, remove that image and fix
the selection: the deleted image deselects (`-1`), a selection above the
deleted index shifts down by one, a selection below is kept.  Out-of-range
indices are a no-op. -/
def delete_image (images : List α) (selected_image_index : ℤ) (image_index : ℤ) :
    List α × ℤ :=
  if 0 ≤ image_index ∧ image_index < images.length then
    (images.eraseIdx image_index.toNat,
     if selected_image_index = image_index then -1
     else if image_index < selected_image_index then selected_image_index - 1
     else selected_image_index)
  else (images, selected_image_index)

/-! ## PDF export (`ImageLabel.export_to_pdf`, lines 1088-1150).

The printer plumbing (page size map, orientation, 600 dpi resolution) fixes
the device-pixel page rectangle, taken here as the parameters
`page_width_px x page_height_px`; the loop body is modelled exactly.  The
painter calls issued on the single page the printer opens are recorded as a
list of `PdfOp`.  `drawMeasurement` is what drawing a measurement overlay
would record; `export_to_pdf` contains no code path that emits it. -/

/-- A measurement record as stored in an image's `lines` / `gradients`
lists (endpoints in image-native pixels, optional calibration data). -/
structure QMeas where
  start_point : ℚ × ℚ
  end_point : ℚ × ℚ
  real_length : Option ℚ
deriving DecidableEq

/-- The per-image state `export_to_pdf` can see: pixmap dimensions, the
physical scale factor, the stored `offset_ratios`, and the measurement
lists. -/
structure ExpImage where
  pixmap_width : ℤ
  pixmap_height : ℤ
  image_scale_factor : ℚ
  offset_ratios : ℚ × ℚ
  lines : List QMeas
  gradients : List QMeas
deriving DecidableEq

/-- One painter call of the export renderer.  `drawImage` records the
bounding box requested from `QPixmap.scaled` (Qt fits the pixmap inside it
keeping aspect) and the clamped page offset it is drawn at. -/
inductive PdfOp where
  | drawImage (pixmap_width pixmap_height : ℤ) (x_offset y_offset : ℤ)
      (target_width target_height : ℤ)
  | drawMeasurement (m : QMeas)
deriving DecidableEq

/-- Whether a recorded painter call renders a measurement overlay. -/
def PdfOp.isMeasurement : PdfOp → Bool
  | .drawMeasurement _ => true
  | _ => false

/-- The export target size of an image: its physical millimetre size
`pixels * image_scale_factor` converted to device pixels at 600 dpi via
`int(mm * dpi / 25.4)`. -/
def export_target_size (pixels : ℤ) (image_scale_factor : ℚ) : ℤ :=
  pyInt ((pixels : ℚ) * image_scale_factor * 600 / (254 / 10))

/-- The page offset the export renderer draws an image at:
`int(free * ratio)` for `free = page - target`, then clamped to
`[0, page]`. -/
def export_offset (page_px target_px : ℤ) (ratio : ℚ) : ℤ :=
  max 0 (min (pyInt (((page_px - target_px : ℤ) : ℚ) * ratio)) page_px)

/-- Embeds `ImageLabel.export_to_pdf`, as the list of painter calls issued on the
one PDF page.  The live view zoom `scale_factor` is a field of the same
object but the export loop never reads it. -/
def export_to_pdf (scale_factor : ℚ) (page_width_px page_height_px : ℤ)
    (images : List ExpImage) : List PdfOp :=
  match images with
  | [] => []
  | img :: rest =>
    let display_width := export_target_size img.pixmap_width img.image_scale_factor
    let display_height := export_target_size img.pixmap_height img.image_scale_factor
    PdfOp.drawImage img.pixmap_width img.pixmap_height
        (export_offset page_width_px display_width img.offset_ratios.1)
        (export_offset page_height_px display_height img.offset_ratios.2)
        display_width display_height
      :: export_to_pdf scale_factor page_width_px page_height_px rest

/-! ## Calibration (`ImageLabel._open_length_dialog` lines 901-930,
`ImageLabel._adjust_image_scale` lines 932-943).

Float arithmetic is embedded in the reals; `math.dist` is the Euclidean
distance.  The dialog's `float(dialog.get_length())` parse is modelled by an
`Option ℝ` result: `none` when the text raises `ValueError` (the only
statement in the `try` block that can), `some v` when it parses to `v`. -/

/-- The three units offered by the calibration dialog's combo box. -/
inductive LUnit where
  | mm
  | cm
  | inch
deriving DecidableEq

/-- The unit conversion applied to the entered value: `mm` is kept, `cm`
multiplies by 10, `inch` by 25.4. -/
noncomputable def unitToMm : LUnit → ℝ
  | .mm => 1
  | .cm => 10
  | .inch => 254 / 10

/-- A measurement dict as mutated by `_open_length_dialog`: endpoints in the
image's native pixel space plus the optional calibration fields. -/
structure Measurement where
  start_point : ℝ × ℝ
  end_point : ℝ × ℝ
  real_length : Option ℝ
  original_value : Option ℝ
  original_unit : Option LUnit

/-- Embeds `math.dist(line["start"], line["end"])`: the Euclidean pixel length of a
measurement line. -/
noncomputable def pixel_length (m : Measurement) : ℝ :=
  Real.sqrt ((m.start_point.1 - m.end_point.1) ^ 2 +
             (m.start_point.2 - m.end_point.2) ^ 2)

open Classical in
/-- Embeds `ImageLabel._adjust_image_scale` restricted to its effect on the owning
image's `image_scale_factor`: a non-positive pixel length returns early and
keeps the old scale, otherwise the new scale is
`real_length_mm / pixel_length`. -/
noncomputable def adjust_image_scale (m : Measurement) (real_length_mm : ℝ)
    (image_scale_factor : ℝ) : ℝ :=
  if pixel_length m ≤ 0 then image_scale_factor
  else real_length_mm / pixel_length m

/-- The accepted-dialog body of `ImageLabel._open_length_dialog`, acting on
the targeted measurement and the owning image's scale factor.  A failed
parse (`none`) raises `ValueError` before any mutation, shows a warning and
changes nothing.  A parsed value is converted by unit and written into the
measurement's `real_length` / `original_value` / `original_unit` fields
unconditionally, then `_adjust_image_scale` is called (it reads only the
endpoints, which are not mutated). -/
noncomputable def open_length_dialog (dialog_input : Option ℝ) (unit : LUnit)
    (m : Measurement) (image_scale_factor : ℝ) : Measurement × ℝ :=
  match dialog_input with
  | none => (m, image_scale_factor)
  | some length_value =>
    let real_length_mm := length_value * unitToMm unit
    ({ m with
        real_length := some real_length_mm,
        original_value := some length_value,
        original_unit := some unit },
     adjust_image_scale m real_length_mm image_scale_factor)

/-! ## Angle snapping (`snap_angle`, `src/utils.py` lines 6-27).

`math.atan2` is embedded piecewise through `Real.arctan` (the value at
`(0, 0)` is `0`, as in Python), `math.degrees` multiplies by `180 / pi`. -/

open Classical in
/-- Embeds `math.atan2 y x`: the angle of the vector `(x, y)`, in `(-pi, pi]`. -/
noncomputable def atan2 (y x : ℝ) : ℝ :=
  if 0 < x then Real.arctan (y / x)
  else if x < 0 ∧ 0 ≤ y then Real.arctan (y / x) + Real.pi
  else if x < 0 ∧ y < 0 then Real.arctan (y / x) - Real.pi
  else if 0 < y then Real.pi / 2
  else if y < 0 then -(Real.pi / 2)
  else 0

/-- Embeds `math.degrees`: radians to degrees. -/
noncomputable def degrees (r : ℝ) : ℝ := r * 180 / Real.pi

/-- The first snapping test of `snap_angle`: the absolute angle of
`(dx, dy)` in degrees is within `threshold_deg` of 0 or of 180. -/
def snapsHorizontal (dx dy threshold_deg : ℝ) : Prop :=
  abs (degrees (atan2 dy dx)) < threshold_deg ∨
  abs (abs (degrees (atan2 dy dx)) - 180) < threshold_deg

/-- The second snapping test of `snap_angle`: the absolute angle of
`(dx, dy)` in degrees is within `threshold_deg` of 90 (covering both +90
and -90 for the signed angle). -/
def snapsVertical (dx dy threshold_deg : ℝ) : Prop :=
  abs (abs (degrees (atan2 dy dx)) - 90) < threshold_deg

open Classical in
/-- Embeds `snap_angle` from `src/utils.py`: a zero vector passes through, a
near-horizontal angle zeroes `dy`, a near-vertical one zeroes `dx`, anything
else passes through unchanged. -/
noncomputable def snap_angle (dx dy threshold_deg : ℝ) : ℝ × ℝ :=
  if dx = 0 ∧ dy = 0 then (dx, dy)
  else if snapsHorizontal dx dy threshold_deg then (dx, 0)
  else if snapsVertical dx dy threshold_deg then (0, dy)
  else (dx, dy)

/-! ## Supporting lemmas -/

lemma pyInt_sub_lt (q : ℚ) : |(pyInt q : ℚ) - q| < 1 := by
  unfold pyInt
  split
  · rw [abs_sub_lt_iff]
    constructor
    · have := Int.floor_le q
      linarith
    · have := Int.sub_one_lt_floor q
      linarith
  · rw [abs_sub_lt_iff]
    constructor
    · have := Int.ceil_lt_add_one q
      linarith
    · have := Int.le_ceil q
      linarith

lemma pyInt_intCast (n : ℤ) : pyInt n = n := by
  unfold pyInt
  split <;> simp

lemma clamp_div_bounds {a b : ℤ} (hb : 0 < b) :
    0 ≤ ((max 0 (min a b) : ℤ) : ℚ) / (b : ℚ) ∧
    ((max 0 (min a b) : ℤ) : ℚ) / (b : ℚ) ≤ 1 := by
  have hb' : (0 : ℚ) < (b : ℚ) := by exact_mod_cast hb
  constructor
  · apply div_nonneg _ (le_of_lt hb')
    exact_mod_cast le_max_left 0 (min a b)
  · rw [div_le_one hb']
    exact_mod_cast max_le (le_of_lt hb) (min_le_right a b)

lemma drag_ratios_bounds (e : DragEvent) :
    0 ≤ (drag_ratios e).1 ∧ (drag_ratios e).1 ≤ 1 ∧
    0 ≤ (drag_ratios e).2 ∧ (drag_ratios e).2 ≤ 1 := by
  unfold drag_ratios
  dsimp only
  constructor
  · split
    · exact (clamp_div_bounds (by assumption)).1
    · exact le_refl 0
  constructor
  · split
    · exact (clamp_div_bounds (by assumption)).2
    · exact zero_le_one
  constructor
  · split
    · exact (clamp_div_bounds (by assumption)).1
    · exact le_refl 0
  · split
    · exact (clamp_div_bounds (by assumption)).2
    · exact zero_le_one

lemma getElem?_eraseIdx_of_lt :
    ∀ (l : List α) (i j : ℕ), j < i → (l.eraseIdx i)[j]? = l[j]?
  | [], _, _, _ => rfl
  | _ :: _, 0, j, h => absurd h (Nat.not_lt_zero j)
  | _ :: _, _ + 1, 0, _ => by simp [List.eraseIdx_cons_succ]
  | _ :: l, i + 1, j + 1, h => by
    simpa using getElem?_eraseIdx_of_lt l i j (Nat.lt_of_succ_lt_succ h)

lemma getElem?_eraseIdx_of_ge :
    ∀ (l : List α) (i j : ℕ), i ≤ j → (l.eraseIdx i)[j]? = l[j + 1]?
  | [], _, _, _ => by simp
  | _ :: _, 0, j, _ => by simp [List.eraseIdx]
  | a :: l, i + 1, j + 1, h => by
    simpa using getElem?_eraseIdx_of_ge l i j (Nat.le_of_succ_le_succ h)
  | _ :: _, i + 1, 0, h => absurd h (by omega)

lemma clamp_between {lo x : ℚ} (h1 : lo ≤ x) (h2 : x ≤ 5) :
    max lo (min 5 x) = x := by
  rw [min_eq_right h2, max_eq_right h1]

lemma scroll_key_identity (f1 f2 b p n : ℚ) (hinv : f1 * f2 = 1) :
    n + (p + n) * (f2 - 1) = b + (n - (b + (p + b) * (f1 - 1))) * f2 := by
  linear_combination (p + b) * hinv

lemma scroll_roundtrip_bound (f1 f2 : ℚ) (hinv : f1 * f2 = 1) (hf2 : 0 < f2)
    (b p : ℚ) :
    |((pyInt (((pyInt (b + (p + b) * (f1 - 1)) : ℤ) : ℚ) +
        (p + ((pyInt (b + (p + b) * (f1 - 1)) : ℤ) : ℚ)) * (f2 - 1)) : ℤ) : ℚ) -
      b| < 1 + f2 := by
  set X := b + (p + b) * (f1 - 1) with hX
  set n := ((pyInt X : ℤ) : ℚ) with hn
  have hd1 : |n - X| < 1 := pyInt_sub_lt X
  have hkey : n + (p + n) * (f2 - 1) = b + (n - X) * f2 :=
    scroll_key_identity f1 f2 b p n hinv
  set Y := n + (p + n) * (f2 - 1) with hY
  have hd2 : |((pyInt Y : ℤ) : ℚ) - Y| < 1 := pyInt_sub_lt Y
  have h3 : |Y - b| = |n - X| * f2 := by
    rw [hkey, add_sub_cancel_left, abs_mul, abs_of_pos hf2]
  have h4 : |n - X| * f2 < f2 := by
    calc |n - X| * f2 < 1 * f2 := by
          exact mul_lt_mul_of_pos_right hd1 hf2
      _ = f2 := one_mul f2
  calc |((pyInt Y : ℤ) : ℚ) - b|
      ≤ |((pyInt Y : ℤ) : ℚ) - Y| + |Y - b| := abs_sub_le _ _ _
    _ < 1 + f2 := by rw [h3]; linarith

lemma pixel_length_three_four :
    pixel_length ⟨(0, 0), (3, 4), none, none, none⟩ = 5 := by
  unfold pixel_length
  norm_num
  rw [show (25 : ℝ) = 5 ^ 2 by norm_num]
  exact Real.sqrt_sq (by norm_num)

lemma pixel_length_degenerate :
    pixel_length ⟨(1, 2), (1, 2), none, none, none⟩ = 0 := by
  unfold pixel_length
  norm_num

lemma atan2_zero_zero : atan2 0 0 = 0 := by
  unfold atan2
  rw [if_neg (lt_irrefl (0 : ℝ)), if_neg (by simp), if_neg (by simp),
      if_neg (lt_irrefl (0 : ℝ)), if_neg (lt_irrefl (0 : ℝ))]

lemma degrees_zero : degrees 0 = 0 := by
  unfold degrees
  rw [zero_mul, zero_div]

lemma degrees_pi : degrees Real.pi = 180 := by
  unfold degrees
  rw [mul_comm, mul_div_assoc, div_self Real.pi_ne_zero, mul_one]

lemma degrees_pi_div_two : degrees (Real.pi / 2) = 90 := by
  unfold degrees
  field_simp
  ring

lemma degrees_neg_pi_div_two : degrees (-(Real.pi / 2)) = -90 := by
  unfold degrees
  field_simp
  ring

lemma degrees_atan2_zero_left (dx : ℝ) :
    degrees (atan2 0 dx) = 0 ∨ degrees (atan2 0 dx) = 180 := by
  rcases lt_trichotomy dx 0 with h | h | h
  · right
    have : atan2 0 dx = Real.pi := by
      unfold atan2
      rw [if_neg (by linarith), if_pos ⟨h, le_refl (0 : ℝ)⟩, zero_div,
          Real.arctan_zero, zero_add]
    rw [this, degrees_pi]
  · left
    subst h
    rw [atan2_zero_zero, degrees_zero]
  · left
    have : atan2 0 dx = 0 := by
      unfold atan2
      rw [if_pos h, zero_div, Real.arctan_zero]
    rw [this, degrees_zero]

lemma snapsHorizontal_of_dy_zero (dx : ℝ) : snapsHorizontal dx 0 1 := by
  unfold snapsHorizontal
  rcases degrees_atan2_zero_left dx with h | h
  · left
    rw [h, abs_zero]
    norm_num
  · right
    rw [h, abs_of_nonneg (by norm_num : (0 : ℝ) ≤ 180), sub_self, abs_zero]
    norm_num

lemma atan2_pos_left_zero (dy : ℝ) (h : 0 < dy) : atan2 dy 0 = Real.pi / 2 := by
  unfold atan2
  rw [if_neg (lt_irrefl (0 : ℝ)), if_neg (by simp), if_neg (by simp), if_pos h]

lemma atan2_neg_left_zero (dy : ℝ) (h : dy < 0) :
    atan2 dy 0 = -(Real.pi / 2) := by
  unfold atan2
  rw [if_neg (lt_irrefl (0 : ℝ)), if_neg (by simp), if_neg (by simp),
      if_neg (not_lt.mpr h.le), if_pos h]

lemma snapsVertical_of_dx_zero (dy : ℝ) (h : dy ≠ 0) :
    snapsVertical 0 dy 1 := by
  unfold snapsVertical
  rcases h.lt_or_lt with hneg | hpos
  · rw [atan2_neg_left_zero dy hneg, degrees_neg_pi_div_two, abs_neg,
        abs_of_nonneg (by norm_num : (0 : ℝ) ≤ 90), sub_self, abs_zero]
    norm_num
  · rw [atan2_pos_left_zero dy hpos, degrees_pi_div_two,
        abs_of_nonneg (by norm_num : (0 : ℝ) ≤ 90), sub_self, abs_zero]
    norm_num

lemma not_snapsHorizontal_of_vertical (dx dy : ℝ)
    (hV : snapsVertical dx dy 1) : ¬ snapsHorizontal dx dy 1 := by
  unfold snapsVertical at hV
  unfold snapsHorizontal
  rw [abs_sub_lt_iff] at hV
  rintro (h | h)
  · linarith [hV.2]
  · rw [abs_sub_lt_iff] at h
    linarith [hV.1, h.2]

lemma not_snapsVertical_zero_zero : ¬ snapsVertical 0 0 1 := by
  unfold snapsVertical
  rw [atan2_zero_zero, degrees_zero, abs_zero, zero_sub, abs_neg,
      abs_of_nonneg (by norm_num : (0 : ℝ) ≤ 90)]
  norm_num

lemma snapsHorizontal_zero_zero : snapsHorizontal 0 0 1 := by
  unfold snapsHorizontal
  left
  rw [atan2_zero_zero, degrees_zero, abs_zero]
  norm_num

lemma degrees_atan2_one_one : degrees (atan2 1 1) = 45 := by
  have h : atan2 1 1 = Real.pi / 4 := by
    unfold atan2
    rw [if_pos one_pos]
    norm_num [Real.arctan_one]
  rw [h]
  unfold degrees
  field_simp
  ring

/-! ## Claim theorems -/

/-- C5: for every image whose combined scale
`image_scale_factor * DISPLAY_SCALE * view_zoom` is non-zero,
`screen_to_image_coords` inverts `image_to_screen_coords` (exactly, in the
exact-arithmetic embedding of the float computation); when the combined
scale is zero, `screen_to_image_coords` returns `(0, 0)`. -/
theorem C5_screen_image_inverse (img : ImageView) (scale_factor : ℚ)
    (img_x img_y screen_x screen_y : ℚ) :
    (image_to_screen_scale img scale_factor ≠ 0 →
      screen_to_image_coords img scale_factor
        (image_to_screen_coords img scale_factor img_x img_y).1
        (image_to_screen_coords img scale_factor img_x img_y).2 =
        (img_x, img_y)) ∧
    (image_to_screen_scale img scale_factor = 0 →
      screen_to_image_coords img scale_factor screen_x screen_y = (0, 0)) := by
  constructor
  · intro h
    unfold screen_to_image_coords image_to_screen_coords
    rw [if_neg h]
    dsimp only
    rw [add_sub_cancel_right, add_sub_cancel_right,
        mul_div_cancel_right₀ _ h, mul_div_cancel_right₀ _ h]
  · intro h
    unfold screen_to_image_coords
    rw [if_pos h]

/-- C5 witness: a concrete round trip through the coordinate transforms at
non-zero combined scale. -/
theorem C5_screen_image_inverse_witness :
    image_to_screen_scale ⟨1 / 2, (3, 4)⟩ 2 ≠ 0 ∧
    screen_to_image_coords ⟨1 / 2, (3, 4)⟩ 2
      (image_to_screen_coords ⟨1 / 2, (3, 4)⟩ 2 5 7).1
      (image_to_screen_coords ⟨1 / 2, (3, 4)⟩ 2 5 7).2 = (5, 7) :=
  ⟨by norm_num [image_to_screen_scale, DISPLAY_SCALE],
   (C5_screen_image_inverse ⟨1 / 2, (3, 4)⟩ 2 5 7 0 0).1
     (by norm_num [image_to_screen_scale, DISPLAY_SCALE])⟩

/-- C6: after any sequence of drag steps starting from ratios in
`[0,1] x [0,1]`, the stored `offset_ratios` remain in `[0,1] x [0,1]`: each
pointer-move clamps the new pixel offset to `[0, free]` before dividing,
and a dimension with zero or negative free space gets ratio `0`. -/
theorem C6_drag_keeps_ratios_in_unit_box (evs : List DragEvent)
    (init : ℚ × ℚ)
    (h0 : 0 ≤ init.1 ∧ init.1 ≤ 1 ∧ 0 ≤ init.2 ∧ init.2 ≤ 1) :
    (0 ≤ (apply_drags evs init).1 ∧ (apply_drags evs init).1 ≤ 1 ∧
     0 ≤ (apply_drags evs init).2 ∧ (apply_drags evs init).2 ≤ 1) ∧
    ∀ e : DragEvent,
      (e.paper_width - e.display_width ≤ 0 → (drag_ratios e).1 = 0) ∧
      (e.paper_height - e.display_height ≤ 0 → (drag_ratios e).2 = 0) := by
  constructor
  · induction evs generalizing init with
    | nil => exact h0
    | cons e rest ih =>
      have hstep : apply_drags (e :: rest) init = apply_drags rest (drag_ratios e) := rfl
      rw [hstep]
      exact ih (drag_ratios e) (drag_ratios_bounds e)
  · intro e
    constructor
    · intro hw
      unfold drag_ratios
      dsimp only
      rw [if_neg (by omega)]
    · intro hh
      unfold drag_ratios
      dsimp only
      rw [if_neg (by omega)]

/-- C6 witness: a two-step drag sequence, the second step on an image wider
than the paper (negative free width). -/
theorem C6_drag_keeps_ratios_in_unit_box_witness :
    (0 ≤ (apply_drags [⟨800, 600, 200, 100, (0, 0), (9999, -50)⟩,
                       ⟨800, 600, 900, 100, (0, 0), (5, 5)⟩] (0, 0)).1 ∧
     (apply_drags [⟨800, 600, 200, 100, (0, 0), (9999, -50)⟩,
                   ⟨800, 600, 900, 100, (0, 0), (5, 5)⟩] (0, 0)).1 ≤ 1 ∧
     0 ≤ (apply_drags [⟨800, 600, 200, 100, (0, 0), (9999, -50)⟩,
                       ⟨800, 600, 900, 100, (0, 0), (5, 5)⟩] (0, 0)).2 ∧
     (apply_drags [⟨800, 600, 200, 100, (0, 0), (9999, -50)⟩,
                   ⟨800, 600, 900, 100, (0, 0), (5, 5)⟩] (0, 0)).2 ≤ 1) ∧
    ∀ e : DragEvent,
      (e.paper_width - e.display_width ≤ 0 → (drag_ratios e).1 = 0) ∧
      (e.paper_height - e.display_height ≤ 0 → (drag_ratios e).2 = 0) :=
  C6_drag_keeps_ratios_in_unit_box _ (0, 0) (by norm_num)

/-- C10: deleting an image at a valid index preserves the selection
invariant — afterwards the selection is `-1` or a valid index of the
remaining list — and when the previously selected image is not the deleted
one, the selection still refers to the same image (indices above the
deleted one shift down by one). -/
theorem C10_delete_image_selection_invariant (images : List α)
    (sel idx : ℤ)
    (hsel : sel = -1 ∨ (0 ≤ sel ∧ sel < images.length)) :
    ((delete_image images sel idx).2 = -1 ∨
      (0 ≤ (delete_image images sel idx).2 ∧
       (delete_image images sel idx).2 < (delete_image images sel idx).1.length)) ∧
    (0 ≤ idx → idx < images.length → 0 ≤ sel → sel ≠ idx →
      (delete_image images sel idx).1[(delete_image images sel idx).2.toNat]? =
        images[sel.toNat]?) := by
  unfold delete_image
  by_cases hg : 0 ≤ idx ∧ idx < (images.length : ℤ)
  · rw [if_pos hg]
    have hlen : ((images.eraseIdx idx.toNat).length : ℤ) = (images.length : ℤ) - 1 := by
      have h1 : idx.toNat < images.length := by omega
      have := List.length_eraseIdx_add_one h1
      omega
    dsimp only
    by_cases heq : sel = idx
    · rw [if_pos heq]
      exact ⟨Or.inl rfl, fun _ _ _ hne => absurd heq hne⟩
    · rw [if_neg heq]
      by_cases hlt : idx < sel
      · rw [if_pos hlt]
        have hselpos : 0 ≤ sel := by
          rcases hsel with h | h
          · omega
          · exact h.1
        constructor
        · right
          rcases hsel with h | h
          · omega
          · omega
        · intro _ _ _ _
          have h1 : idx.toNat ≤ (sel - 1).toNat := by omega
          have h2 : (sel - 1).toNat + 1 = sel.toNat := by omega
          rw [getElem?_eraseIdx_of_ge images idx.toNat (sel - 1).toNat h1, h2]
      · rw [if_neg hlt]
        constructor
        · rcases hsel with h | h
          · exact Or.inl h
          · right
            omega
        · intro _ _ hselnn hne
          have h1 : sel.toNat < idx.toNat := by omega
          exact getElem?_eraseIdx_of_lt images idx.toNat sel.toNat h1
  · rw [if_neg hg]
    exact ⟨hsel, fun h1 h2 _ _ => absurd ⟨h1, h2⟩ hg⟩

/-- C3: calibrating a line of positive pixel length `L` with value `V` and
unit `U` sets `real_length = V * c(U)` with `c(mm) = 1`, `c(cm) = 10`,
`c(inch) = 25.4`, and sets the owning image's scale factor to
`V * c(U) / L`; re-calibrating the same line with a new value and unit
replaces the scale factor again (last calibration wins). -/
theorem C3_calibration_sets_scale (v v2 : ℝ) (u u2 : LUnit) (m : Measurement)
    (s : ℝ) (hL : 0 < pixel_length m) :
    unitToMm LUnit.mm = 1 ∧ unitToMm LUnit.cm = 10 ∧
    unitToMm LUnit.inch = 254 / 10 ∧
    (open_length_dialog (some v) u m s).1.real_length = some (v * unitToMm u) ∧
    (open_length_dialog (some v) u m s).2 = v * unitToMm u / pixel_length m ∧
    (open_length_dialog (some v2) u2 (open_length_dialog (some v) u m s).1
        (open_length_dialog (some v) u m s).2).2 =
      v2 * unitToMm u2 / pixel_length m := by
  have hp : pixel_length { m with
      real_length := some (v * unitToMm u),
      original_value := some v, original_unit := some u } = pixel_length m := rfl
  refine ⟨rfl, rfl, rfl, rfl, ?_, ?_⟩
  · show adjust_image_scale m (v * unitToMm u) s = _
    unfold adjust_image_scale
    rw [if_neg (not_le.mpr hL)]
  · show adjust_image_scale { m with
        real_length := some (v * unitToMm u),
        original_value := some v, original_unit := some u }
        (v2 * unitToMm u2) (adjust_image_scale m (v * unitToMm u) s) = _
    unfold adjust_image_scale
    rw [hp, if_neg (not_le.mpr hL)]

/-- C3 witness: calibrating the pixel-length-5 line from (0,0) to (3,4)
with the value 10 in centimetres. -/
theorem C3_calibration_sets_scale_witness :
    0 < pixel_length ⟨(0, 0), (3, 4), none, none, none⟩ ∧
    (open_length_dialog (some 10) LUnit.cm
        ⟨(0, 0), (3, 4), none, none, none⟩ 1).2 =
      10 * unitToMm LUnit.cm / pixel_length ⟨(0, 0), (3, 4), none, none, none⟩ :=
  ⟨by rw [pixel_length_three_four]; norm_num,
   (C3_calibration_sets_scale 10 5 LUnit.cm LUnit.mm
      ⟨(0, 0), (3, 4), none, none, none⟩ 1
      (by rw [pixel_length_three_four]; norm_num)).2.2.2.2.1⟩

/-- C2 counterexample: the entered value 0 is non-positive, yet the
submission is accepted and mutates state — `real_length` is overwritten
(from `none` to `some 0`) and the image scale factor changes from 1 to 0. -/
theorem C2_counterexample_nonpositive_accepted :
    (open_length_dialog (some 0) LUnit.mm
        ⟨(0, 0), (3, 4), none, none, none⟩ 1).1.real_length ≠
      (⟨(0, 0), (3, 4), none, none, none⟩ : Measurement).real_length ∧
    (open_length_dialog (some 0) LUnit.mm
        ⟨(0, 0), (3, 4), none, none, none⟩ 1).2 ≠ 1 := by
  constructor
  · show some ((0 : ℝ) * unitToMm LUnit.mm) ≠ none
    simp
  · show adjust_image_scale ⟨(0, 0), (3, 4), none, none, none⟩
        ((0 : ℝ) * unitToMm LUnit.mm) 1 ≠ 1
    unfold adjust_image_scale
    rw [pixel_length_three_four]
    norm_num

/-- C2 amended: only a failed numeric parse (`ValueError`) is rejected with
a warning and no state change; a successfully parsed value is applied with
no positivity or finiteness check — `real_length` is always overwritten
with `value * unit factor`, and for a line of positive pixel length the
scale factor is updated from it. -/
theorem C2_amended_parse_only_validation (u : LUnit) (m : Measurement)
    (s : ℝ) :
    open_length_dialog none u m s = (m, s) ∧
    ∀ v : ℝ,
      (open_length_dialog (some v) u m s).1.real_length =
        some (v * unitToMm u) ∧
      (0 < pixel_length m →
        (open_length_dialog (some v) u m s).2 =
          v * unitToMm u / pixel_length m) := by
  refine ⟨rfl, fun v => ⟨rfl, fun hL => ?_⟩⟩
  show adjust_image_scale m (v * unitToMm u) s = _
  unfold adjust_image_scale
  rw [if_neg (not_le.mpr hL)]

/-- C2 amended witness: the negative value -5 mm is applied to the
pixel-length-5 line, scaling the image by -1 mm/px. -/
theorem C2_amended_parse_only_validation_witness :
    (open_length_dialog (some (-5)) LUnit.mm
        ⟨(0, 0), (3, 4), none, none, none⟩ 1).2 =
      -5 * unitToMm LUnit.mm / pixel_length ⟨(0, 0), (3, 4), none, none, none⟩ :=
  ((C2_amended_parse_only_validation LUnit.mm
      ⟨(0, 0), (3, 4), none, none, none⟩ 1).2 (-5)).2
    (by rw [pixel_length_three_four]; norm_num)

/-- C4 counterexample: submitting the value 5 mm for a zero-length line
leaves the scale factor at 3 as claimed, but the measurement record is
mutated — its `real_length` is overwritten — so the submission is not free
of state change. -/
theorem C4_counterexample_record_mutated :
    pixel_length ⟨(1, 2), (1, 2), none, none, none⟩ ≤ 0 ∧
    (open_length_dialog (some 5) LUnit.mm
        ⟨(1, 2), (1, 2), none, none, none⟩ 3).2 = 3 ∧
    (open_length_dialog (some 5) LUnit.mm
        ⟨(1, 2), (1, 2), none, none, none⟩ 3).1.real_length ≠
      (⟨(1, 2), (1, 2), none, none, none⟩ : Measurement).real_length := by
  refine ⟨le_of_eq pixel_length_degenerate, ?_, ?_⟩
  · show adjust_image_scale ⟨(1, 2), (1, 2), none, none, none⟩
        ((5 : ℝ) * unitToMm LUnit.mm) 3 = 3
    unfold adjust_image_scale
    rw [if_pos (le_of_eq pixel_length_degenerate)]
  · show some ((5 : ℝ) * unitToMm LUnit.mm) ≠ none
    simp

/-- C4 amended: calibrating a line of non-positive pixel length leaves the
image's scale factor unchanged (the `_adjust_image_scale` guard returns
early), but the measurement record is still overwritten with the new
`real_length`, `original_value` and `original_unit`. -/
theorem C4_amended_zero_length_scale_unchanged (v : ℝ) (u : LUnit)
    (m : Measurement) (s : ℝ) (hL : pixel_length m ≤ 0) :
    (open_length_dialog (some v) u m s).2 = s ∧
    (open_length_dialog (some v) u m s).1 =
      { m with
          real_length := some (v * unitToMm u),
          original_value := some v, original_unit := some u } := by
  refine ⟨?_, rfl⟩
  show adjust_image_scale m (v * unitToMm u) s = s
  unfold adjust_image_scale
  rw [if_pos hL]

/-- C4 amended witness: the zero-length line at (1,2) with a 7 inch
submission. -/
theorem C4_amended_zero_length_scale_unchanged_witness :
    (open_length_dialog (some 7) LUnit.inch
        ⟨(1, 2), (1, 2), none, none, none⟩ 3).2 = 3 ∧
    (open_length_dialog (some 7) LUnit.inch
        ⟨(1, 2), (1, 2), none, none, none⟩ 3).1 =
      { (⟨(1, 2), (1, 2), none, none, none⟩ : Measurement) with
          real_length := some ((7 : ℝ) * unitToMm LUnit.inch),
          original_value := some 7, original_unit := some LUnit.inch } :=
  C4_amended_zero_length_scale_unchanged 7 LUnit.inch
    ⟨(1, 2), (1, 2), none, none, none⟩ 3 (le_of_eq pixel_length_degenerate)

/-- C9 counterexample: a single 500 x 1000 px image added non-batch to an
empty A4-portrait canvas is scaled height-flush (0.277 mm/px) and then
flowed like any other image: the layout assigns horizontal offset ratio
20/143, not the 1/2 of horizontal centering, and at zoom 1 the image sits
at the 80 px (10 mm) left margin with a 492 px gap on the right — so the
first-added image is not special-cased to be centered horizontally. -/
theorem C9_counterexample_tall_image_left_aligned :
    calculate_initial_scale 210 297 500 1000 false 1 = 277 / 1000 ∧
    auto_arrange_images 210 297 [⟨500, 1000, 277 / 1000⟩] = [(20 / 143, 1 / 2)] ∧
    (20 : ℚ) / 143 ≠ 1 / 2 ∧
    (get_image_offset_from_ratios (get_display_metrics 210 297 1).1
      (get_display_metrics 210 297 1).2
      (display_size_on_widget 500 (277 / 1000) 1)
      (display_size_on_widget 1000 (277 / 1000) 1) (20 / 143, 1 / 2)).1 = 80 ∧
    (get_display_metrics 210 297 1).1 - 80 -
      display_size_on_widget 500 (277 / 1000) 1 = 492 := by
  refine ⟨?_, ?_, by norm_num, ?_, ?_⟩
  · norm_num [calculate_initial_scale]
  · norm_num [auto_arrange_images, arrange_loop, arrange_step, pyInt, DISPLAY_SCALE]
  · norm_num [get_image_offset_from_ratios, get_display_metrics,
      display_size_on_widget, pyInt, DISPLAY_SCALE]
  · norm_num [get_display_metrics, display_size_on_widget, pyInt, DISPLAY_SCALE]

/-- C9 amended: a single image added to an empty canvas (non-batch mode) is
scaled so one dimension is flush to the 10 mm margins; the first-added image
is not special-cased but flowed like later images from the 10 mm top-left
layout cursor, so it ends up horizontally centered only when its width is
the flush dimension.  For a 1000 x 500 px image on A4 portrait
(210 x 297 mm) the scale is exactly 0.19 mm/px (hence at most 0.19), the
flow layout assigns `offset_ratios = (1/2, 5/101)`, and at zoom 1 the
resulting screen offset is `(80, 80)` pixels — horizontally centered (left
gap 80 px equals right gap 80 px) with a 10 mm (80 px) top margin; a
height-flush 500 x 1000 px image instead gets ratios `(20/143, 1/2)`,
left-aligned at the 80 px margin. -/
theorem C9_amended_single_image_flush_flowed :
    (∀ (pw ph : ℤ) (wmm hmm : ℚ), 0 < pw → 0 < ph →
      (pw : ℚ) * calculate_initial_scale wmm hmm pw ph false 1 = wmm - 2 * 10 ∨
      (ph : ℚ) * calculate_initial_scale wmm hmm pw ph false 1 = hmm - 2 * 10) ∧
    calculate_initial_scale 210 297 1000 500 false 1 = 19 / 100 ∧
    calculate_initial_scale 210 297 1000 500 false 1 ≤ 19 / 100 ∧
    auto_arrange_images 210 297 [⟨1000, 500, 19 / 100⟩] = [(1 / 2, 5 / 101)] ∧
    get_image_offset_from_ratios (get_display_metrics 210 297 1).1
      (get_display_metrics 210 297 1).2
      (display_size_on_widget 1000 (19 / 100) 1)
      (display_size_on_widget 500 (19 / 100) 1) (1 / 2, 5 / 101) = (80, 80) ∧
    (get_display_metrics 210 297 1).1 - 80 -
      display_size_on_widget 1000 (19 / 100) 1 = 80 ∧
    auto_arrange_images 210 297 [⟨500, 1000, 277 / 1000⟩] = [(20 / 143, 1 / 2)] ∧
    (get_image_offset_from_ratios (get_display_metrics 210 297 1).1
      (get_display_metrics 210 297 1).2
      (display_size_on_widget 500 (277 / 1000) 1)
      (display_size_on_widget 1000 (277 / 1000) 1) (20 / 143, 1 / 2)).1 = 80 := by
  refine ⟨?_, ?_, ?_, ?_, ?_, ?_, ?_, ?_⟩
  · intro pw ph wmm hmm hpw hph
    have hpw0 : (pw : ℚ) ≠ 0 := by exact_mod_cast hpw.ne'
    have hph0 : (ph : ℚ) ≠ 0 := by exact_mod_cast hph.ne'
    have hbase : calculate_initial_scale wmm hmm pw ph false 1 =
        min ((wmm - 2 * 10) / (pw : ℚ)) ((hmm - 2 * 10) / (ph : ℚ)) := by
      simp [calculate_initial_scale, hpw.ne', hph.ne']
    rw [hbase]
    rcases min_cases ((wmm - 2 * 10) / (pw : ℚ)) ((hmm - 2 * 10) / (ph : ℚ)) with
      ⟨hmin, _⟩ | ⟨hmin, _⟩
    · left
      rw [hmin, mul_comm, div_mul_cancel₀ _ hpw0]
    · right
      rw [hmin, mul_comm, div_mul_cancel₀ _ hph0]
  · norm_num [calculate_initial_scale]
  · norm_num [calculate_initial_scale]
  · norm_num [auto_arrange_images, arrange_loop, arrange_step, pyInt, DISPLAY_SCALE]
  · norm_num [get_image_offset_from_ratios, get_display_metrics,
      display_size_on_widget, pyInt, DISPLAY_SCALE]
  · norm_num [get_display_metrics, display_size_on_widget, pyInt, DISPLAY_SCALE]
  · norm_num [auto_arrange_images, arrange_loop, arrange_step, pyInt, DISPLAY_SCALE]
  · norm_num [get_image_offset_from_ratios, get_display_metrics,
      display_size_on_widget, pyInt, DISPLAY_SCALE]

/-- C9 witness: the flush-dimension disjunction instantiated at the
1000 x 500 image on A4 portrait. -/
theorem C9_amended_single_image_flush_flowed_witness :
    (1000 : ℚ) * calculate_initial_scale 210 297 1000 500 false 1 = 210 - 2 * 10 ∨
    (500 : ℚ) * calculate_initial_scale 210 297 1000 500 false 1 = 297 - 2 * 10 :=
  C9_amended_single_image_flush_flowed.1 1000 500 210 297 (by norm_num) (by norm_num)

/-- C1 counterexample: a composition whose single image carries a calibrated
measurement line exports to a painter-call list with exactly one operation —
the image itself — and no measurement overlay at all, so the export does not
contain every measurement overlay. -/
theorem C1_counterexample_overlays_missing :
    (⟨100, 80, 1, (0, 0), [⟨(0, 0), (50, 0), some 100⟩], []⟩ : ExpImage).lines ≠ [] ∧
    (export_to_pdf 1 4960 7016
        [⟨100, 80, 1, (0, 0), [⟨(0, 0), (50, 0), some 100⟩], []⟩]).length = 1 ∧
    (export_to_pdf 1 4960 7016
        [⟨100, 80, 1, (0, 0), [⟨(0, 0), (50, 0), some 100⟩], []⟩]).all
      (fun op => ! op.isMeasurement) = true := by
  refine ⟨by simp, rfl, rfl⟩

/-- C1 amended: the export renders, on its single page, exactly one image
operation per placed image, at page offset
`clamp(int(exportFreeSpace * offsetRatios), 0, page)` with the target size
derived from `imageScaleFactor` at 600 dpi; the output is independent of the
live view zoom at export time, and no measurement overlay (calibrated or
not) is rendered. -/
theorem C1_amended_export_images_only (scale_factor scale_factor2 : ℚ)
    (page_width_px page_height_px : ℤ) (images : List ExpImage) :
    export_to_pdf scale_factor page_width_px page_height_px images =
      export_to_pdf scale_factor2 page_width_px page_height_px images ∧
    export_to_pdf scale_factor page_width_px page_height_px images =
      images.map (fun img =>
        PdfOp.drawImage img.pixmap_width img.pixmap_height
          (export_offset page_width_px
            (export_target_size img.pixmap_width img.image_scale_factor)
            img.offset_ratios.1)
          (export_offset page_height_px
            (export_target_size img.pixmap_height img.image_scale_factor)
            img.offset_ratios.2)
          (export_target_size img.pixmap_width img.image_scale_factor)
          (export_target_size img.pixmap_height img.image_scale_factor)) ∧
    ∀ op ∈ export_to_pdf scale_factor page_width_px page_height_px images,
      op.isMeasurement = false := by
  have hmap : ∀ sf : ℚ,
      export_to_pdf sf page_width_px page_height_px images =
        images.map (fun img =>
          PdfOp.drawImage img.pixmap_width img.pixmap_height
            (export_offset page_width_px
              (export_target_size img.pixmap_width img.image_scale_factor)
              img.offset_ratios.1)
            (export_offset page_height_px
              (export_target_size img.pixmap_height img.image_scale_factor)
              img.offset_ratios.2)
            (export_target_size img.pixmap_width img.image_scale_factor)
            (export_target_size img.pixmap_height img.image_scale_factor)) := by
    intro sf
    induction images with
    | nil => rfl
    | cons img rest ih => simp only [export_to_pdf, List.map_cons, ih]
  refine ⟨(hmap scale_factor).trans (hmap scale_factor2).symm,
    hmap scale_factor, ?_⟩
  intro op hop
  rw [hmap scale_factor] at hop
  obtain ⟨img, _, rfl⟩ := List.mem_map.mp hop
  rfl

/-- C1 witness: the image operation produced for a 10 x 10 px image at
scale 1 mm/px on a 200 x 300 device-pixel page is not a measurement
overlay. -/
theorem C1_amended_export_images_only_witness :
    PdfOp.isMeasurement (PdfOp.drawImage 10 10 0 0 236 236) = false :=
  (C1_amended_export_images_only 1 2 200 300
      [⟨10, 10, 1, (0, 0), [], []⟩]).2.2 _
    (by norm_num [export_to_pdf, export_target_size, export_offset, pyInt])

/-- C8: applying `apply_zoom` with factor `f1` about a screen point and then
with factor `f2 = 1/f1` about the same screen point (the viewport point
`(vx, vy)` plus the current scroll offset) restores the view scale exactly
and each scroll offset to within `1 + f2` (the tolerance introduced by the
two truncating `int(...)` conversions), provided neither step hits the
`[min_scale, 5.0]` clamp. -/
theorem C8_zoom_roundtrip (min_scale f1 f2 s0 : ℚ) (h0 v0 vx vy : ℤ)
    (s1 s2 : ℚ) (h1 v1 h2 v2 : ℤ)
    (hmin : 0 < min_scale) (hf1 : 0 < f1) (hinv : f1 * f2 = 1)
    (hs0l : min_scale ≤ s0) (hs0u : s0 ≤ 5)
    (hs1l : min_scale ≤ s0 * f1) (hs1u : s0 * f1 ≤ 5)
    (hstep1 : apply_zoom min_scale f1 (vx + h0, vy + v0) s0 h0 v0 = (s1, h1, v1))
    (hstep2 : apply_zoom min_scale f2 (vx + h1, vy + v1) s1 h1 v1 = (s2, h2, v2)) :
    s2 = s0 ∧ |(h2 : ℚ) - (h0 : ℚ)| < 1 + f2 ∧ |(v2 : ℚ) - (v0 : ℚ)| < 1 + f2 := by
  have hf2 : 0 < f2 := by
    rcases lt_trichotomy f2 0 with h | h | h
    · nlinarith
    · rw [h, mul_zero] at hinv
      norm_num at hinv
    · exact h
  have hs0 : s0 ≠ 0 := (lt_of_lt_of_le hmin hs0l).ne'
  have hclamp1 : max min_scale (min 5 (s0 * f1)) = s0 * f1 :=
    clamp_between hs1l hs1u
  have hrf1 : s0 * f1 / s0 = f1 := mul_div_cancel_left₀ f1 hs0
  simp only [apply_zoom, if_neg hs0, hclamp1, hrf1] at hstep1
  rw [Prod.mk.injEq, Prod.mk.injEq] at hstep1
  obtain ⟨hs1, hh1, hv1⟩ := hstep1
  have hs1ne : s1 ≠ 0 := by
    rw [← hs1]
    exact (lt_of_lt_of_le hmin hs1l).ne'
  have hs1f2 : s1 * f2 = s0 := by
    rw [← hs1, mul_assoc, hinv, mul_one]
  have hclamp2 : max min_scale (min 5 (s1 * f2)) = s0 := by
    rw [hs1f2]
    exact clamp_between hs0l hs0u
  have hrf2 : s0 / s1 = f2 := by
    rw [← hs1f2]
    exact mul_div_cancel_left₀ f2 hs1ne
  simp only [apply_zoom, if_neg hs1ne, hclamp2, hrf2] at hstep2
  rw [Prod.mk.injEq, Prod.mk.injEq] at hstep2
  obtain ⟨hs2, hh2, hv2⟩ := hstep2
  refine ⟨hs2.symm, ?_, ?_⟩
  · rw [← hh2, ← hh1]
    have := scroll_roundtrip_bound f1 f2 hinv hf2 (h0 : ℚ) (vx : ℚ)
    push_cast
    push_cast at this
    convert this using 4
  · rw [← hv2, ← hv1]
    have := scroll_roundtrip_bound f1 f2 hinv hf2 (v0 : ℚ) (vy : ℚ)
    push_cast
    push_cast at this
    convert this using 4

/-- C8 witness: zooming in by 2 and back by 1/2 about the viewport point
(10, 0) from scale 1 returns to scale 1 with both scroll offsets exactly
restored (well within the `1 + f2` tolerance). -/
theorem C8_zoom_roundtrip_witness :
    (1 : ℚ) = 1 ∧ |((0 : ℤ) : ℚ) - ((0 : ℤ) : ℚ)| < 1 + 1 / 2 ∧
      |((0 : ℤ) : ℚ) - ((0 : ℤ) : ℚ)| < 1 + 1 / 2 :=
  C8_zoom_roundtrip (1 / 10) 2 (1 / 2) 1 0 0 10 0 2 1 10 0 0 0
    (by norm_num) (by norm_num) (by norm_num) (by norm_num) (by norm_num)
    (by norm_num) (by norm_num)
    (by norm_num [apply_zoom, pyInt])
    (by norm_num [apply_zoom, pyInt])

/-- C7 counterexample: at the zero delta vector `snap_angle` returns
`(0, 0)`, which equals `(0, dy)` for `dy = 0`, although the angle
`atan2(0, 0) = 0` is not within 1 degree of +90 or -90 — so "returns
`(0, dy)` exactly when the angle is within 1 degree of plus or minus 90"
fails at `(0, 0)`. -/
theorem C7_counterexample_zero_vector :
    snap_angle 0 0 1 = (0, 0) ∧ ¬ snapsVertical 0 0 1 :=
  ⟨by unfold snap_angle; rw [if_pos ⟨rfl, rfl⟩], not_snapsVertical_zero_zero⟩

/-- C7 amended: `snap_angle` at threshold 1 returns `(dx, 0)` exactly when
the angle `atan2(dy, dx)` in degrees is within 1 degree of 0 or 180;
it returns `(0, dy)` exactly when the angle is within 1 degree of +90 or
-90 — or when `(dx, dy) = (0, 0)`, where the zero-vector early return
`(0, 0)` coincides with `(0, dy)`; in all remaining cases the vector passes
through unchanged. -/
theorem C7_amended_snap_angle (dx dy : ℝ) :
    (snap_angle dx dy 1 = (dx, 0) ↔ snapsHorizontal dx dy 1) ∧
    (snap_angle dx dy 1 = (0, dy) ↔
      (snapsVertical dx dy 1 ∨ (dx = 0 ∧ dy = 0))) ∧
    (¬ snapsHorizontal dx dy 1 → ¬ snapsVertical dx dy 1 →
      snap_angle dx dy 1 = (dx, dy)) := by
  unfold snap_angle
  by_cases h0 : dx = 0 ∧ dy = 0
  · obtain ⟨hdx, hdy⟩ := h0
    subst hdx
    subst hdy
    rw [if_pos ⟨rfl, rfl⟩]
    exact ⟨⟨fun _ => snapsHorizontal_zero_zero, fun _ => rfl⟩,
      ⟨fun _ => Or.inr ⟨rfl, rfl⟩, fun _ => rfl⟩, fun _ _ => rfl⟩
  · rw [if_neg h0]
    by_cases hH : snapsHorizontal dx dy 1
    · rw [if_pos hH]
      refine ⟨⟨fun _ => hH, fun _ => rfl⟩, ⟨?_, ?_⟩, fun hnH _ => absurd hH hnH⟩
      · intro heq
        rw [Prod.mk.injEq] at heq
        exact absurd ⟨heq.1, heq.2.symm⟩ h0
      · rintro (hV | hzz)
        · exact absurd hH (not_snapsHorizontal_of_vertical dx dy hV)
        · exact absurd hzz h0
    · rw [if_neg hH]
      by_cases hV : snapsVertical dx dy 1
      · rw [if_pos hV]
        refine ⟨⟨?_, fun h => absurd h hH⟩,
          ⟨fun _ => Or.inl hV, fun _ => rfl⟩, fun _ hnV => absurd hV hnV⟩
        intro heq
        rw [Prod.mk.injEq] at heq
        exact absurd ⟨heq.1.symm, heq.2⟩ h0
      · rw [if_neg hV]
        refine ⟨⟨?_, fun h => absurd h hH⟩, ⟨?_, ?_⟩, fun _ _ => rfl⟩
        · intro heq
          rw [Prod.mk.injEq] at heq
          refine absurd ?_ hH
          rw [heq.2]
          exact snapsHorizontal_of_dy_zero dx
        · intro heq
          rw [Prod.mk.injEq] at heq
          have hdy : dy ≠ 0 := fun hz => h0 ⟨heq.1, hz⟩
          refine absurd ?_ hV
          rw [heq.1]
          exact snapsVertical_of_dx_zero dy hdy
        · rintro (hVv | hzz)
          · exact absurd hVv hV
          · exact absurd hzz h0

/-- C7 witness: the diagonal vector (1, 1), at 45 degrees, passes through
`snap_angle` unchanged. -/
theorem C7_amended_snap_angle_witness : snap_angle 1 1 1 = (1, 1) :=
  (C7_amended_snap_angle 1 1).2.2
    (by
      unfold snapsHorizontal
      rw [degrees_atan2_one_one,
          abs_of_nonneg (by norm_num : (0 : ℝ) ≤ 45)]
      rintro (h | h)
      · norm_num at h
      · rw [abs_sub_lt_iff] at h
        have := h.2
        norm_num at this)
    (by
      unfold snapsVertical
      rw [degrees_atan2_one_one,
          abs_of_nonneg (by norm_num : (0 : ℝ) ≤ 45), abs_sub_lt_iff]
      rintro ⟨-, h⟩
      norm_num at h)

/-- C10 witness: deleting index 1 of a three-element list while index 2 is
selected keeps the same image selected (now at index 1). -/
theorem C10_delete_image_selection_invariant_witness :
    ((delete_image [10, 20, 30] 2 1).2 = -1 ∨
      (0 ≤ (delete_image [10, 20, 30] 2 1).2 ∧
       (delete_image [10, 20, 30] 2 1).2 < (delete_image [10, 20, 30] 2 1).1.length)) ∧
    (0 ≤ (1 : ℤ) → (1 : ℤ) < ([10, 20, 30] : List ℕ).length → 0 ≤ (2 : ℤ) →
      (2 : ℤ) ≠ 1 →
      (delete_image [10, 20, 30] 2 1).1[(delete_image [10, 20, 30] 2 1).2.toNat]? =
        ([10, 20, 30] : List ℕ)[(2 : ℤ).toNat]?) :=
  C10_delete_image_selection_invariant [10, 20, 30] 2 1 (by norm_num)

end OpenScaler
